import Mathlib

set_option maxRecDepth 16000

/-!
Verification of the core claims about the `prolog` repository (package
`prolog`, builtin.go, and the `engine` package VM).  Go values are embedded
shallowly: mutable global bindings become an explicit environment, Go maps
become association lists, promises of the `nondet` package are represented
by their forced outcome, and `int64` arithmetic wraps explicitly where the
source relies on machine arithmetic.
-/

namespace PrologM

/-- FVal is an exact rational value `num / den`, written as an explicit
fraction so that the kernel can evaluate its arithmetic.  All values built
by the model have `den > 0`. -/
structure FVal where
  num : Int
  den : Int
deriving DecidableEq, Repr

/-- GoFloat models a Go `float64` value.  A finite float64 is represented by
its exact rational value; `posInf`, `negInf` and `nan` model the IEEE
special values.  Arithmetic on finite values is modelled exactly (IEEE
rounding is not modelled); every concrete float used by a theorem below is
a dyadic rational on which the modelled operations coincide with IEEE
float64 arithmetic. -/
inductive GoFloat where
  | finite : FVal → GoFloat
  | posInf : GoFloat
  | negInf : GoFloat
  | nan : GoFloat
deriving DecidableEq, Repr

/-- Term is the term model of the `term` package (absent from src/).
Modelled from the spec: `Variable(id)` (identity by id, bindings live in
the environment), `Atom(name)`, `Integer(i64)`, `Float(f64)` and
`Compound{functor, args}`. -/
inductive Term where
  | var : Nat → Term
  | atom : String → Term
  | int : Int → Term
  | float : GoFloat → Term
  | compound : String → List Term → Term

/-- procedureIndicator of the source: a name/arity pair (`name` is an Atom,
`arity` an Integer). -/
structure PI where
  name : String
  arity : Int
deriving DecidableEq, Repr

/-- wrap64 reduces an unbounded integer to the Go `int64` value produced by
two's-complement wrap-around. -/
def wrap64 (x : Int) : Int :=
  (x + 2 ^ 63) % 2 ^ 64 - 2 ^ 63

/-- strCmp models Go `strings.Compare`: -1, 0 or 1. -/
def strCmp (a b : String) : Int :=
  if a < b then -1 else if b < a then 1 else 0

/-- fvSub is exact subtraction of fractions. -/
def fvSub (a b : FVal) : FVal :=
  ⟨a.num * b.den - b.num * a.den, a.den * b.den⟩

/-- fvTrunc truncates a fraction toward zero, which is what the Go
conversion `int64(f)` does to an in-range `float64`. -/
def fvTrunc (a : FVal) : Int :=
  Int.tdiv a.num a.den

/-- gfToI64 models the Go conversion `int64(f)` of a `float64`.  Values out
of the int64 range, infinities and NaN convert to `math.MinInt64`, which is
the amd64 behaviour (the Go specification leaves it implementation
defined). -/
def gfToI64 : GoFloat → Int
  | GoFloat.finite q =>
      let t := fvTrunc q
      if -2 ^ 63 ≤ t ∧ t < 2 ^ 63 then t else -2 ^ 63
  | _ => -2 ^ 63

/-- gfSub models `float64` subtraction on the GoFloat model, exact on finite
values and with the IEEE rules for infinities and NaN. -/
def gfSub : GoFloat → GoFloat → GoFloat
  | GoFloat.finite a, GoFloat.finite b => GoFloat.finite (fvSub a b)
  | GoFloat.finite _, GoFloat.posInf => GoFloat.negInf
  | GoFloat.finite _, GoFloat.negInf => GoFloat.posInf
  | GoFloat.posInf, GoFloat.finite _ => GoFloat.posInf
  | GoFloat.negInf, GoFloat.finite _ => GoFloat.negInf
  | GoFloat.posInf, GoFloat.negInf => GoFloat.posInf
  | GoFloat.negInf, GoFloat.posInf => GoFloat.negInf
  | GoFloat.posInf, GoFloat.posInf => GoFloat.nan
  | GoFloat.negInf, GoFloat.negInf => GoFloat.nan
  | GoFloat.nan, _ => GoFloat.nan
  | _, GoFloat.nan => GoFloat.nan

/-- intToGf models the Go conversion `Float(i)` from `int64` to `float64`.
It is exact here; the IEEE rounding of integers above 2^53 is not modelled
(no claim uses such an integer). -/
def intToGf (i : Int) : GoFloat :=
  GoFloat.finite ⟨i, 1⟩

mutual

/-- compare is the term-order comparison of builtin.go (lines 523-599),
on resolved terms.  Variables are compared by an (arbitrary) total order on
their identities, modelling `strings.Compare(fmt.Sprintf("%p", a), ...)`.
Float arithmetic follows `int64(a - b)` via the GoFloat model; integer
subtraction wraps as Go `int64` subtraction does. -/
def compare : Term → Term → Int
  | Term.var a, Term.var b => if a < b then -1 else if b < a then 1 else 0
  | Term.var _, _ => -1
  | Term.float _, Term.var _ => 1
  | Term.float a, Term.float b => gfToI64 (gfSub a b)
  | Term.float a, Term.int b =>
      let d := gfToI64 (gfSub a (intToGf b))
      if d = 0 then -1 else d
  | Term.float _, _ => -1
  | Term.int _, Term.var _ => 1
  | Term.int a, Term.float b =>
      let d := gfToI64 (gfSub (intToGf a) b)
      if d = 0 then 1 else d
  | Term.int a, Term.int b => wrap64 (a - b)
  | Term.int _, _ => -1
  | Term.atom _, Term.var _ => 1
  | Term.atom _, Term.float _ => 1
  | Term.atom _, Term.int _ => 1
  | Term.atom a, Term.atom b => strCmp a b
  | Term.atom _, _ => -1
  | Term.compound f as, Term.compound g bs =>
      let d : Int := (as.length : Int) - (bs.length : Int)
      if d ≠ 0 then d
      else
        let d2 := strCmp f g
        if d2 ≠ 0 then d2 else compareArgs as bs
  | Term.compound _ _, _ => 1

/-- compareArgs is the argument loop of `compare` on two compound terms:
the first nonzero comparison wins. -/
def compareArgs : List Term → List Term → Int
  | a :: as, b :: bs =>
      let d := compare a b
      if d ≠ 0 then d else compareArgs as bs
  | _, _ => 0

end

mutual

/-- floatsFinite is true when every float inside the term is a finite
float64 (no infinity, no NaN). -/
def floatsFinite : Term → Bool
  | Term.var _ => true
  | Term.atom _ => true
  | Term.int _ => true
  | Term.float f =>
      match f with
      | GoFloat.finite _ => true
      | _ => false
  | Term.compound _ as => floatsFiniteL as

/-- floatsFiniteL is `floatsFinite` on every element of a list. -/
def floatsFiniteL : List Term → Bool
  | [] => true
  | a :: as => floatsFinite a && floatsFiniteL as

end

theorem floatsFiniteL_mem {as : List Term} {a : Term} (ha : a ∈ as)
    (h : floatsFiniteL as = true) : floatsFinite a = true := by
  induction as with
  | nil => cases ha
  | cons b bs ih =>
      rw [floatsFiniteL, Bool.and_eq_true] at h
      rcases List.mem_cons.mp ha with rfl | hmem
      · exact h.1
      · exact ih hmem h.2

theorem wrap64_zero : wrap64 0 = 0 := by decide

theorem strCmp_self (a : String) : strCmp a a = 0 := by
  simp [strCmp]

theorem gfSub_finite (a b : FVal) :
    gfSub (GoFloat.finite a) (GoFloat.finite b) = GoFloat.finite (fvSub a b) :=
  rfl

@[simp] theorem compare_var_var (a b : Nat) :
    compare (Term.var a) (Term.var b) =
      if a < b then -1 else if b < a then 1 else 0 := by
  simp [compare.eq_def]

@[simp] theorem compare_atom_atom (a b : String) :
    compare (Term.atom a) (Term.atom b) = strCmp a b := by
  simp [compare.eq_def]

@[simp] theorem compare_int_int (a b : Int) :
    compare (Term.int a) (Term.int b) = wrap64 (a - b) := by
  simp [compare.eq_def]

@[simp] theorem compare_float_float (a b : GoFloat) :
    compare (Term.float a) (Term.float b) = gfToI64 (gfSub a b) := by
  simp [compare.eq_def]

@[simp] theorem compare_int_float (a : Int) (b : GoFloat) :
    compare (Term.int a) (Term.float b) =
      (if gfToI64 (gfSub (intToGf a) b) = 0 then 1
        else gfToI64 (gfSub (intToGf a) b)) := by
  simp [compare.eq_def]

@[simp] theorem compare_float_int (a : GoFloat) (b : Int) :
    compare (Term.float a) (Term.int b) =
      (if gfToI64 (gfSub a (intToGf b)) = 0 then -1
        else gfToI64 (gfSub a (intToGf b))) := by
  simp [compare.eq_def]

theorem compare_compound_compound (f g : String) (as bs : List Term) :
    compare (Term.compound f as) (Term.compound g bs) =
      (if ((as.length : Int) - (bs.length : Int)) ≠ 0 then
          (as.length : Int) - (bs.length : Int)
        else if strCmp f g ≠ 0 then strCmp f g else compareArgs as bs) := by
  rw [compare.eq_def]

theorem compareArgs_nil_left (bs : List Term) : compareArgs [] bs = 0 := by
  simp [compareArgs.eq_def]

theorem compareArgs_cons (a b : Term) (as bs : List Term) :
    compareArgs (a :: as) (b :: bs) =
      (if compare a b ≠ 0 then compare a b else compareArgs as bs) := by
  rw [compareArgs.eq_def]

theorem compareArgs_self {as : List Term} (h : ∀ a ∈ as, compare a a = 0) :
    compareArgs as as = 0 := by
  induction as with
  | nil => exact compareArgs_nil_left []
  | cons a bs ih =>
      rw [compareArgs_cons]
      simp only [h a (by simp), ne_eq, not_true_eq_false, if_false]
      exact ih (fun x hx => h x (List.mem_cons_of_mem _ hx))

theorem compare_self_aux :
    ∀ (n : Nat) (t : Term), sizeOf t ≤ n → floatsFinite t = true →
      compare t t = 0 := by
  intro n
  induction n with
  | zero =>
      intro t hsz _
      exfalso
      cases t <;> simp at hsz
  | succ n ih =>
      intro t hsz hf
      match t with
      | Term.var a => simp
      | Term.atom a => rw [compare_atom_atom]; exact strCmp_self a
      | Term.int a =>
          rw [compare_int_int, sub_self]
          exact wrap64_zero
      | Term.float f =>
          match f with
          | GoFloat.finite q =>
              rw [compare_float_float, gfSub_finite]
              have hnum : (fvSub q q).num = 0 := by simp [fvSub]
              simp only [gfToI64, fvTrunc, hnum, Int.zero_tdiv]
              norm_num
          | GoFloat.posInf => simp [floatsFinite] at hf
          | GoFloat.negInf => simp [floatsFinite] at hf
          | GoFloat.nan => simp [floatsFinite] at hf
      | Term.compound f as =>
          have hfl : floatsFiniteL as = true := by
            rw [floatsFinite] at hf
            exact hf
          have hmem : ∀ a ∈ as, compare a a = 0 := by
            intro a hma
            have h1 : sizeOf a < sizeOf as := List.sizeOf_lt_of_mem hma
            have h2 : sizeOf as < sizeOf (Term.compound f as) := by
              simp
            exact ih a (by omega) (floatsFiniteL_mem hma hfl)
          rw [compare_compound_compound]
          simp only [sub_self, ne_eq, not_true_eq_false, if_false,
            strCmp_self]
          exact compareArgs_self hmem

/-- C4 amended, positive part: on terms all of whose floats are finite,
`compare` reports equality of a term with itself. -/
theorem compare_refl_of_floatsFinite (t : Term) (hf : floatsFinite t = true) :
    compare t t = 0 :=
  compare_self_aux (sizeOf t) t le_rfl hf

/-- C4 witness: the reflexivity theorem applied to a concrete term. -/
theorem compare_refl_of_floatsFinite_witness :
    floatsFinite (Term.compound "f" [Term.atom "a", Term.int 3]) = true ∧
      compare (Term.compound "f" [Term.atom "a", Term.int 3])
        (Term.compound "f" [Term.atom "a", Term.int 3]) = 0 :=
  ⟨by simp [floatsFinite, floatsFiniteL],
    compare_refl_of_floatsFinite _ (by simp [floatsFinite, floatsFiniteL])⟩

/-- C4 counterexample: `compare` is not a total order.  The distinct floats
0.5 and 1.25 are reported equal (their difference truncates to zero), 1.25
and 2.0 are reported equal, yet 0.5 and 2.0 are not — equality of the
reported order is neither discriminating on distinct floats nor
transitive. -/
theorem compare_total_order_counterexample :
    compare (Term.float (GoFloat.finite ⟨1, 2⟩))
        (Term.float (GoFloat.finite ⟨5, 4⟩)) = 0 ∧
      compare (Term.float (GoFloat.finite ⟨5, 4⟩))
        (Term.float (GoFloat.finite ⟨2, 1⟩)) = 0 ∧
      compare (Term.float (GoFloat.finite ⟨1, 2⟩))
        (Term.float (GoFloat.finite ⟨2, 1⟩)) = -1 ∧
      (1 : Int) * 4 ≠ 5 * 2 := by
  refine ⟨?_, ?_, ?_, by decide⟩ <;>
    · rw [compare_float_float, gfSub_finite]
      decide

/-- C3 amended: an Integer and a Float of equal numeric value are ordered
with the Float strictly before (less than) the Integer: the truncated
difference is zero, and the tie branch of `compare` returns 1 for
`Integer` versus `Float` and -1 for `Float` versus `Integer`. -/
theorem compare_int_float_tie_float_first (i : Int) (f : FVal)
    (hval : f.num = i * f.den) :
    compare (Term.int i) (Term.float (GoFloat.finite f)) = 1 ∧
      compare (Term.float (GoFloat.finite f)) (Term.int i) = -1 := by
  constructor
  · rw [compare_int_float, intToGf, gfSub_finite]
    have hnum : (fvSub ⟨i, 1⟩ f).num = 0 := by
      simp [fvSub, hval]
    simp only [gfToI64, fvTrunc, hnum, Int.zero_tdiv]
    norm_num
  · rw [compare_float_int, intToGf, gfSub_finite]
    have hnum : (fvSub f ⟨i, 1⟩).num = 0 := by
      simp [fvSub, hval]
    simp only [gfToI64, fvTrunc, hnum, Int.zero_tdiv]
    norm_num

/-- C3 witness: the tie theorem applied at Integer(1) and Float(1.0). -/
theorem compare_int_float_tie_float_first_witness :
    (1 : Int) = 1 * 1 ∧
      (compare (Term.int 1) (Term.float (GoFloat.finite ⟨1, 1⟩)) = 1 ∧
        compare (Term.float (GoFloat.finite ⟨1, 1⟩)) (Term.int 1) = -1) :=
  ⟨by decide, compare_int_float_tie_float_first 1 ⟨1, 1⟩ (by decide)⟩

/-- Env is the substitution: a map from variable ids to terms plus the
fresh-variable counter.  Modelled from the spec: the `term` package keeps
bindings in the variables themselves (`Ref`) and draws fresh identities
from a process-global counter; both become explicit state here. -/
structure Env where
  bindings : List (Nat × Term)
  fresh : Nat

/-- lookupBind finds the binding of a variable id (first match). -/
def lookupBind : List (Nat × Term) → Nat → Option Term
  | [], _ => none
  | (w, u) :: rest, v => if w = v then some u else lookupBind rest v

/-- bind records a new variable binding. -/
def bind (env : Env) (v : Nat) (t : Term) : Env :=
  { env with bindings := (v, t) :: env.bindings }

/-- newVar models `term.NewVariable()`: a fresh identity from the
counter. -/
def newVar (env : Env) : Nat × Env :=
  (env.fresh, { env with fresh := env.fresh + 1 })

/-- resolveN follows variable bindings for at most `n` steps. -/
def resolveN : Nat → List (Nat × Term) → Term → Term
  | 0, _, t => t
  | n + 1, bs, t =>
      match t with
      | Term.var v =>
          match lookupBind bs v with
          | some u => resolveN n bs u
          | none => t
      | _ => t

/-- resolve models `Resolve`: follow the `Ref` chain of a variable until a
non-variable or an unbound variable is reached.  A chain through an acyclic
environment is no longer than the number of bindings. -/
def resolve (env : Env) (t : Term) : Term :=
  resolveN (env.bindings.length + 1) env.bindings t

/-- unifyListWith unifies two argument lists elementwise with the supplied
unifier, threading the environment; lists of different lengths fail. -/
def unifyListWith (u : Term → Term → Env → Option Env) :
    List Term → List Term → Env → Option Env
  | [], [], env => some env
  | a :: as, b :: bs, env =>
      match u a b env with
      | none => none
      | some e => unifyListWith u as bs e
  | _, _, _ => none

/-- unify is Robinson unification without occurs check, modelled from the
spec (the `term` package is absent from src/): resolve both sides, bind an
unbound variable to the other side, compare atomics by value, and recurse
through compounds with the same functor and arity.  Failure restores the
original environment (the trail discipline of the spec); the Nat argument
is recursion gas — with insufficient gas unify conservatively fails, and
every use in this file supplies enough gas for its inputs. -/
def unify : Nat → Term → Term → Env → Option Env
  | 0, _, _, _ => none
  | n + 1, t1, t2, env =>
      match resolve env t1, resolve env t2 with
      | Term.var v, Term.var w =>
          if v = w then some env else some (bind env v (Term.var w))
      | Term.var v, b => some (bind env v b)
      | a, Term.var w => some (bind env w a)
      | Term.atom x, Term.atom y => if x = y then some env else none
      | Term.int x, Term.int y => if x = y then some env else none
      | Term.float x, Term.float y => if x = y then some env else none
      | Term.compound f as, Term.compound g bs =>
          if f = g then unifyListWith (unify n) as bs env else none
      | _, _ => none

/-- unifyFuel is the recursion gas given to `unify`; generous for every
input appearing in this development. -/
def unifyFuel (env : Env) : Nat :=
  256 + 16 * env.bindings.length

/-- PErr models the error values of the source: ISO error terms thrown as
exceptions, plus plain Go errors (`errors.New`). -/
inductive PErr where
  | instantiation : Term → PErr
  | typeE : String → Term → PErr
  | domainE : String → Term → PErr
  | existenceE : String → Term → PErr
  | permissionE : String → String → Term → PErr
  | representationE : String → PErr
  | evaluationE : String → PErr
  | systemE : String → PErr
  | plainE : String → PErr

/-- Prom represents a `nondet.Promise` by its forced outcome.  Modelled
from the spec (§4.5, the `nondet` package is absent from src/): `tru`
carries the environment delivered by the success continuation, `fls` is
ordinary failure, `cutSig b` is a failure that also prunes alternatives up
to the barrier `b`, and `err` short-circuits to the nearest catch. -/
inductive Prom where
  | tru : Env → Prom
  | fls : Prom
  | cutSig : Nat → Prom
  | err : PErr → Prom

/-- forceB models `Promise.Force`: a success/failure boolean or an
error. -/
def forceB : Prom → Except PErr Bool
  | Prom.tru _ => Except.ok true
  | Prom.fls => Except.ok false
  | Prom.cutSig _ => Except.ok false
  | Prom.err e => Except.error e

/-- delayF models forcing `nondet.Delay(ks...)` left to right; with a
barrier id it also models the delay produced by `clauses.call`, whose
identity a `Cut` prunes to (spec §4.5). -/
def delayF (barrier : Option Nat) : List (Unit → Prom) → Prom
  | [] => Prom.fls
  | t :: rest =>
      match t () with
      | Prom.fls => delayF barrier rest
      | Prom.cutSig b =>
          match barrier with
          | some i => if b = i then Prom.fls else Prom.cutSig b
          | none => Prom.cutSig b
      | r => r

/-- piTerm is the `name/arity` compound used as an error culprit. -/
def piTerm (pi : PI) : Term :=
  Term.compound "/" [Term.atom pi.name, Term.int pi.arity]

/-- listTerm is the `term.List` constructor: a proper list term. -/
def listTerm (ts : List Term) : Term :=
  ts.foldr (fun h t => Term.compound "." [h, t]) (Term.atom "[]")

/-- Unify is the builtin of builtin.go (line 29): unify without occurs
check, continue with `k` on success, fail restoring the environment
otherwise. -/
def Unify (t1 t2 : Term) (k : Env → Prom) (env : Env) : Prom :=
  match unify (unifyFuel env) t1 t2 env with
  | none => Prom.fls
  | some e => k e

/-- rulify models `Rulify`: wrap a term that is not already a rule (a
`:-` compound of arity 2) as `t :- true` (absent from src/; modelled from
its use in Retract and the spec of `retract(H :- B)`). -/
def rulify (t : Term) : Term :=
  match t with
  | Term.compound ":-" [_, _] => t
  | _ => Term.compound ":-" [t, Term.atom "true"]

/-- piArgs of the source: principal functor and argument list of a callable
term. -/
def piArgs (env : Env) (t : Term) : Except PErr (PI × List Term) :=
  match resolve env t with
  | Term.var _ => Except.error (PErr.instantiation t)
  | Term.atom a => Except.ok (⟨a, 0⟩, [])
  | Term.compound f args => Except.ok (⟨f, (args.length : Int)⟩, args)
  | _ => Except.error (PErr.typeE "callable" t)

/-- Instr is a bytecode instruction: an opcode byte and an operand byte
(engine package, part_000 lines 13-18). -/
structure Instr where
  opcode : Nat
  operand : Nat
deriving DecidableEq, Repr

/-- opVoid, from the opcode enumeration of the engine package. -/
def opVoid : Nat := 0

/-- opEnter, from the opcode enumeration of the engine package. -/
def opEnter : Nat := 1

/-- opCall, from the opcode enumeration of the engine package. -/
def opCall : Nat := 2

/-- opExit, from the opcode enumeration of the engine package. -/
def opExit : Nat := 3

/-- opConst, from the opcode enumeration of the engine package. -/
def opConst : Nat := 4

/-- opVar, from the opcode enumeration of the engine package. -/
def opVar : Nat := 5

/-- opFunctor, from the opcode enumeration of the engine package. -/
def opFunctor : Nat := 6

/-- opPop, from the opcode enumeration of the engine package. -/
def opPop : Nat := 7

/-- opCut, from the opcode enumeration of the engine package. -/
def opCut : Nat := 8

/-- XrElem is an entry of a clause's external-reference table: an atomic
term or a procedure indicator (both implement `term.Interface` in Go). -/
inductive XrElem where
  | xt : Term → XrElem
  | xp : PI → XrElem

/-- Clause is the compiled clause of the `prolog` package: procedure
indicator, original term, xr table, variable slots and bytecode. -/
structure Clause where
  pf : PI
  raw : Term
  xr : List XrElem
  vars : List Nat
  bytecode : List Instr

/-- Procedure is the procedure interface (`Call(vm, args, k, env)`):
either a dynamic clause list or a native builtin closure (`predicateN`);
`args` is the argument list term. -/
inductive Procedure where
  | clausesP : List Clause → Procedure
  | builtinP : (Term → (Env → Prom) → Env → Prom) → Procedure

/-- ProcTable models the Go map from procedure indicators to procedures as
an association list. -/
def ProcTable : Type :=
  List (PI × Procedure)

/-- lookupProc is map lookup. -/
def lookupProc : ProcTable → PI → Option Procedure
  | [], _ => none
  | (q, p) :: rest, pi => if q = pi then some p else lookupProc rest pi

/-- setProc is map update: replace the existing entry or append a new
one. -/
def setProc : ProcTable → PI → Procedure → ProcTable
  | [], pi, p => [(pi, p)]
  | (q, r) :: rest, pi, p =>
      if q = pi then (pi, p) :: rest else (q, r) :: setProc rest pi p

/-- atomicBeq is the structural identity on the atomic terms that an xr
table stores (the `id` function of the source deduplicates atoms and
numbers; compounds are never stored directly). -/
def atomicBeq : Term → Term → Bool
  | Term.var a, Term.var b => a == b
  | Term.atom a, Term.atom b => a == b
  | Term.int a, Term.int b => a == b
  | Term.float a, Term.float b => a == b
  | _, _ => false

/-- xrEq compares xr entries by the structural identity `id`. -/
def xrEq : XrElem → XrElem → Bool
  | XrElem.xt a, XrElem.xt b => atomicBeq a b
  | XrElem.xp a, XrElem.xp b => a == b
  | _, _ => false

/-- CState is the clause under construction during compilation. -/
structure CState where
  xr : List XrElem
  vars : List Nat
  bytecode : List Instr

/-- xrOffset deduplicates an xr entry and returns its dense index
(source `clause.xrOffset`). -/
def xrOffset (c : CState) (x : XrElem) : CState × Nat :=
  match c.xr.findIdx? (fun r => xrEq r x) with
  | some i => (c, i)
  | none => ({ c with xr := c.xr ++ [x] }, c.xr.length)

/-- varOffset interns a variable slot and returns its index
(source `clause.varOffset`). -/
def varOffset (c : CState) (v : Nat) : CState × Nat :=
  match c.vars.findIdx? (fun w => w == v) with
  | some i => (c, i)
  | none => ({ c with vars := c.vars ++ [v] }, c.vars.length)

/-- emit appends one instruction. -/
def emit (c : CState) (op : Nat) (arg : Nat) : CState :=
  { c with bytecode := c.bytecode ++ [⟨op, arg⟩] }

/-- compileArgM compiles one argument (head or body position uses the same
single instruction family of this engine).  Modelled from the spec §4.2:
the `clause.compile` method of the `prolog` package is not under src/;
a variable emits `opVar`, an atomic emits `opConst`, and a compound emits
`opFunctor`, its arguments, then `opPop`.  The Nat argument is recursion
gas, ample for every term in this file. -/
def compileArgM : Nat → CState → Term → CState
  | 0, c, _ => c
  | n + 1, c, t =>
      match t with
      | Term.var v =>
          let (c1, i) := varOffset c v
          emit c1 opVar i
      | Term.compound f as =>
          let (c1, i) := xrOffset c (XrElem.xp ⟨f, (as.length : Int)⟩)
          let c2 := emit c1 opFunctor i
          let c3 := as.foldl (compileArgM n) c2
          emit c3 opPop 0
      | a =>
          let (c1, i) := xrOffset c (XrElem.xt a)
          emit c1 opConst i

/-- flattenConj flattens the right-nested conjunction of a clause body
into the goal sequence (spec §4.2). -/
def flattenConj : Nat → Term → List Term
  | 0, t => [t]
  | n + 1, t =>
      match t with
      | Term.compound "," [a, b] => a :: flattenConj n b
      | _ => [t]

/-- compilePredM compiles one body goal.  Modelled from the spec §4.2: a
bare variable is rewritten to `call(V)`, a cut emits `opCut`, an atom goal
emits `opCall name/0`, a compound goal compiles its arguments then emits
`opCall name/arity`, and anything else is not callable. -/
def compilePredM : Nat → CState → Term → Except PErr CState
  | 0, c, _ => Except.ok c
  | n + 1, c, g =>
      match g with
      | Term.var v => compilePredM n c (Term.compound "call" [Term.var v])
      | Term.atom "!" => Except.ok (emit c opCut 0)
      | Term.atom a =>
          let (c1, i) := xrOffset c (XrElem.xp ⟨a, 0⟩)
          Except.ok (emit c1 opCall i)
      | Term.compound f as =>
          let c1 := as.foldl (compileArgM 64) c
          let (c2, i) := xrOffset c1 (XrElem.xp ⟨f, (as.length : Int)⟩)
          Except.ok (emit c2 opCall i)
      | _ => Except.error (PErr.typeE "callable" g)

/-- compileBodyM emits `opEnter` and then the goal sequence. -/
def compileBodyM (c : CState) (b : Term) : Except PErr CState :=
  (flattenConj 64 b).foldlM (compilePredM 64) (emit c opEnter 0)

/-- compileHeadM compiles the head's arguments (an atom head has none). -/
def compileHeadM (c : CState) (h : Term) : CState :=
  match h with
  | Term.compound _ as => as.foldl (compileArgM 64) c
  | _ => c

/-- compileM models `clause.compile` of the `prolog` package (absent from
src/; modelled from the spec §4.2 and the compile functions of the newer
engine under src/): a rule compiles head then body, a fact compiles only
its head, and every clause ends in `opExit`. -/
def compileM (pf : PI) (t : Term) : Except PErr Clause :=
  match t with
  | Term.compound ":-" [h, b] =>
      match compileBodyM (compileHeadM ⟨[], [], []⟩ h) b with
      | Except.error e => Except.error e
      | Except.ok c =>
          Except.ok ⟨pf, t, c.xr, c.vars, c.bytecode ++ [⟨opExit, 0⟩]⟩
  | _ =>
      let c := compileHeadM ⟨[], [], []⟩ t
      Except.ok ⟨pf, t, c.xr, c.vars, c.bytecode ++ [⟨opExit, 0⟩]⟩

/-- AssertResult is the outcome of `assert`: an error, an updated
procedure table, or an immediately executed directive (which stores
nothing). -/
inductive AssertResult where
  | err : PErr → AssertResult
  | stored : ProcTable → AssertResult
  | directive : PI → List Term → AssertResult

/-- assert is `EngineState.assert` of builtin.go (lines 341-385): a
directive is dispatched instead of stored; a rule is keyed by its head's
procedure indicator; a registered procedure that is not a clause list
yields a permission error; otherwise the compiled clause is merged into
the clause list and the table updated. -/
def assert (procs : ProcTable) (env : Env) (t : Term)
    (merge : List Clause → Clause → List Clause) : AssertResult :=
  match piArgs env t with
  | Except.error e => AssertResult.err e
  | Except.ok (pi0, args) =>
      if pi0 = ⟨":-", 1⟩ then
        match args with
        | [g] =>
            match piArgs env g with
            | Except.error e => AssertResult.err e
            | Except.ok (n, as) => AssertResult.directive n as
        | _ => AssertResult.err (PErr.plainE "unreachable")
      else
        let piE : Except PErr PI :=
          if pi0 = ⟨":-", 2⟩ then
            match args with
            | [h, _] => (piArgs env h).map (fun x => x.1)
            | _ => Except.error (PErr.plainE "unreachable")
          else Except.ok pi0
        match piE with
        | Except.error e => AssertResult.err e
        | Except.ok pi =>
            match lookupProc procs pi with
            | some (Procedure.builtinP _) =>
                AssertResult.err
                  (PErr.permissionE "modify" "static_procedure" (piTerm pi))
            | p =>
                let cs : List Clause :=
                  match p with
                  | some (Procedure.clausesP cs) => cs
                  | _ => []
                match compileM pi t with
                | Except.error e => AssertResult.err e
                | Except.ok c =>
                    AssertResult.stored
                      (setProc procs pi (Procedure.clausesP (merge cs c)))

/-- Assertz appends the new clause (builtin.go lines 328-332). -/
def Assertz (procs : ProcTable) (env : Env) (t : Term) : AssertResult :=
  assert procs env t (fun cs c => cs ++ [c])

/-- Asserta prepends the new clause (builtin.go lines 335-339). -/
def Asserta (procs : ProcTable) (env : Env) (t : Term) : AssertResult :=
  assert procs env t (fun cs c => c :: cs)

/-- retractClauses is the scan loop of `EngineState.Retract` (builtin.go
lines 678-706): a clause whose rulified raw term does not unify with the
target is kept; on the first clause where unification succeeds and the
continuation succeeds (or errors) the remaining clauses are kept and the
scan stops; a clause whose continuation merely fails is dropped from the
accumulated list, exactly as the source's loop does. -/
def retractClauses (env0 : Env) (t : Term) (k : Env → Prom) :
    List Clause → List Clause × Prom
  | [] => ([], Prom.fls)
  | c :: rest =>
      match unify (unifyFuel env0) t (rulify c.raw) env0 with
      | none =>
          let (u, r) := retractClauses env0 t k rest
          (c :: u, r)
      | some env1 =>
          match forceB (k env1) with
          | Except.error e => (rest, Prom.err e)
          | Except.ok true => (rest, Prom.tru env0)
          | Except.ok false => retractClauses env0 t k rest

/-- Retract is `EngineState.Retract` (builtin.go lines 656-707): rulify
the target, look up the procedure by the head's indicator, refuse a
non-clause procedure with a permission error, otherwise run the scan loop
and store the updated clause list back into the table. -/
def Retract (procs : ProcTable) (env : Env) (t : Term) (k : Env → Prom) :
    ProcTable × Prom :=
  let t1 := rulify t
  match t1 with
  | Term.compound _ [h, _] =>
      match piArgs env h with
      | Except.error e => (procs, Prom.err e)
      | Except.ok (pi, _) =>
          match lookupProc procs pi with
          | none => (procs, Prom.fls)
          | some (Procedure.builtinP _) =>
              (procs,
                Prom.err
                  (PErr.permissionE "modify" "static_procedure" (piTerm pi)))
          | some (Procedure.clausesP cs) =>
              let (updated, r) := retractClauses env t1 k cs
              (setProc procs pi (Procedure.clausesP updated), r)
  | _ => (procs, Prom.fls)

/-- clausePA is the compiled fact `p(a)`. -/
def clausePA : Clause :=
  ⟨⟨"p", 1⟩, Term.compound "p" [Term.atom "a"], [XrElem.xt (Term.atom "a")],
    [], [⟨opConst, 0⟩, ⟨opExit, 0⟩]⟩

/-- clausePB is the compiled fact `p(b)`. -/
def clausePB : Clause :=
  ⟨⟨"p", 1⟩, Term.compound "p" [Term.atom "b"], [XrElem.xt (Term.atom "b")],
    [], [⟨opConst, 0⟩, ⟨opExit, 0⟩]⟩

theorem clausePA_compiled :
    compileM ⟨"p", 1⟩ (Term.compound "p" [Term.atom "a"]) =
      Except.ok clausePA := rfl

theorem clausePB_compiled :
    compileM ⟨"p", 1⟩ (Term.compound "p" [Term.atom "b"]) =
      Except.ok clausePB := rfl

/-- retractDemoK is a continuation that succeeds exactly when the retract
target's variable was bound to the atom `b` — it fails on the clause
`p(a)` and succeeds on `p(b)`. -/
def retractDemoK : Env → Prom := fun env =>
  match resolve env (Term.var 0) with
  | Term.atom s => if s = "b" then Prom.tru env else Prom.fls
  | _ => Prom.fls

/-- retractDemoEnv is an empty environment whose fresh counter avoids the
query variable 0. -/
def retractDemoEnv : Env := ⟨[], 1⟩

/-- C1: evaluating `Retract` on the procedure `p/1` with clauses `p(a)`,
`p(b)` and the target `p(X)` whose continuation fails for `X = a` and
succeeds for `X = b`.  The call succeeds, yet the resulting clause list is
empty: the clause `p(a)`, whose unification succeeded but whose
continuation failed, has been removed along with the retracted `p(b)` —
the scan loop never re-appends a clause whose continuation failed.  The
last two conjuncts exhibit that `p(a)` does unify with the target and that
its continuation fails. -/
theorem retract_removes_continuation_failed_clause :
    Retract [(⟨"p", 1⟩, Procedure.clausesP [clausePA, clausePB])]
        retractDemoEnv (Term.compound "p" [Term.var 0]) retractDemoK =
      ([(⟨"p", 1⟩, Procedure.clausesP [])], Prom.tru retractDemoEnv) ∧
    (unify (unifyFuel retractDemoEnv)
        (rulify (Term.compound "p" [Term.var 0])) (rulify clausePA.raw)
        retractDemoEnv) = some ⟨[(0, Term.atom "a")], 1⟩ ∧
    forceB (retractDemoK ⟨[(0, Term.atom "a")], 1⟩) = Except.ok false :=
  ⟨rfl, rfl, rfl⟩

/-- assertBehavior states the property claimed of `assert` for a clause
term `t` stored under the procedure indicator `pi`: a registered
non-clause procedure is refused with a permission error by both Assertz
and Asserta, and otherwise the compiled clause is appended (Assertz) or
prepended (Asserta) to the existing clause list. -/
def assertBehavior (procs : ProcTable) (env : Env) (t : Term) (pi : PI) :
    Prop :=
  (∀ g, lookupProc procs pi = some (Procedure.builtinP g) →
      Assertz procs env t =
          AssertResult.err
            (PErr.permissionE "modify" "static_procedure" (piTerm pi)) ∧
        Asserta procs env t =
          AssertResult.err
            (PErr.permissionE "modify" "static_procedure" (piTerm pi))) ∧
  (∀ c, compileM pi t = Except.ok c →
      (lookupProc procs pi = none →
          Assertz procs env t =
              AssertResult.stored
                (setProc procs pi (Procedure.clausesP ([] ++ [c]))) ∧
            Asserta procs env t =
              AssertResult.stored
                (setProc procs pi (Procedure.clausesP [c]))) ∧
      (∀ cs, lookupProc procs pi = some (Procedure.clausesP cs) →
          Assertz procs env t =
              AssertResult.stored
                (setProc procs pi (Procedure.clausesP (cs ++ [c]))) ∧
            Asserta procs env t =
              AssertResult.stored
                (setProc procs pi (Procedure.clausesP (c :: cs)))))

/-- C5: Assertz appends and Asserta prepends the compiled clause, and a
registered procedure that is not a dynamic clause list is refused with
permission_error(modify, static_procedure, name/arity), leaving the table
unchanged (an `err` result carries no table update).  The first part
covers fact terms (any callable whose indicator is not `:-`), the second
covers rules `H :- B`, keyed by the head's indicator. -/
theorem assert_append_prepend_static :
    (∀ procs env t pi args,
        piArgs env t = Except.ok (pi, args) →
        pi ≠ ⟨":-", 1⟩ → pi ≠ ⟨":-", 2⟩ →
        assertBehavior procs env t pi) ∧
    (∀ procs env h b hpi hargs,
        piArgs env h = Except.ok (hpi, hargs) →
        assertBehavior procs env (Term.compound ":-" [h, b]) hpi) := by
  constructor
  · intro procs env t pi args hpa h1 h2
    constructor
    · intro g hg
      constructor <;>
        simp [Assertz, Asserta, assert, hpa, h1, h2, hg]
    · intro c hc
      constructor
      · intro hnone
        constructor <;>
          simp [Assertz, Asserta, assert, hpa, h1, h2, hnone, hc]
      · intro cs hcs
        constructor <;>
          simp [Assertz, Asserta, assert, hpa, h1, h2, hcs, hc]
  · intro procs env h b hpi hargs hph
    have hpa : piArgs env (Term.compound ":-" [h, b]) =
        Except.ok (⟨":-", 2⟩, [h, b]) := rfl
    constructor
    · intro g hg
      constructor <;>
        simp [Assertz, Asserta, assert, Except.map, hpa, hph, hg]
    · intro c hc
      constructor
      · intro hnone
        constructor <;>
          simp [Assertz, Asserta, assert, Except.map, hpa, hph, hnone, hc]
      · intro cs hcs
        constructor <;>
          simp [Assertz, Asserta, assert, Except.map, hpa, hph, hcs, hc]

/-- C5 witness: the theorem applied to concrete inputs — storing `p(a)`
into an empty table with both Assertz and Asserta, appending a second
clause `p(b)` with Assertz and prepending it with Asserta, and the static
refusal on a table registering `q/0` as a builtin. -/
theorem assert_append_prepend_static_witness :
    (Assertz [] ⟨[], 0⟩ (Term.compound "p" [Term.atom "a"]) =
        AssertResult.stored [(⟨"p", 1⟩, Procedure.clausesP [clausePA])] ∧
      Asserta [] ⟨[], 0⟩ (Term.compound "p" [Term.atom "a"]) =
        AssertResult.stored [(⟨"p", 1⟩, Procedure.clausesP [clausePA])]) ∧
    (Assertz [(⟨"p", 1⟩, Procedure.clausesP [clausePA])] ⟨[], 0⟩
          (Term.compound "p" [Term.atom "b"]) =
        AssertResult.stored
          [(⟨"p", 1⟩, Procedure.clausesP [clausePA, clausePB])] ∧
      Asserta [(⟨"p", 1⟩, Procedure.clausesP [clausePA])] ⟨[], 0⟩
          (Term.compound "p" [Term.atom "b"]) =
        AssertResult.stored
          [(⟨"p", 1⟩, Procedure.clausesP [clausePB, clausePA])]) ∧
    (Assertz [(⟨"q", 0⟩, Procedure.builtinP (fun _ _ _ => Prom.fls))]
          ⟨[], 0⟩ (Term.atom "q") =
        AssertResult.err
          (PErr.permissionE "modify" "static_procedure" (piTerm ⟨"q", 0⟩)) ∧
      Asserta [(⟨"q", 0⟩, Procedure.builtinP (fun _ _ _ => Prom.fls))]
          ⟨[], 0⟩ (Term.atom "q") =
        AssertResult.err
          (PErr.permissionE "modify" "static_procedure" (piTerm ⟨"q", 0⟩))) := by
  refine ⟨?_, ?_, ?_⟩
  · have h := ((assert_append_prepend_static.1 [] ⟨[], 0⟩
        (Term.compound "p" [Term.atom "a"]) ⟨"p", 1⟩ [Term.atom "a"] rfl
        (by decide) (by decide)).2 clausePA rfl).1 rfl
    exact h
  · have h := ((assert_append_prepend_static.1
        [(⟨"p", 1⟩, Procedure.clausesP [clausePA])] ⟨[], 0⟩
        (Term.compound "p" [Term.atom "b"]) ⟨"p", 1⟩ [Term.atom "b"] rfl
        (by decide) (by decide)).2 clausePB rfl).2 [clausePA] rfl
    exact h
  · have h := (assert_append_prepend_static.1
        [(⟨"q", 0⟩, Procedure.builtinP (fun _ _ _ => Prom.fls))] ⟨[], 0⟩
        (Term.atom "q") ⟨"q", 0⟩ [] rfl (by decide) (by decide)).1
        (fun _ _ _ => Prom.fls) rfl
    exact h

/-- Arg is the builtin of builtin.go (lines 138-171).  The term must
resolve to a compound; an unbound index enumerates the argument positions
as alternatives; an Integer index returns failure when it is 0 or at least
the arity, a domain error when negative, and otherwise unifies `arg` with
the argument before that position. -/
def Arg (nth t arg : Term) (k : Env → Prom) (env : Env) : Prom :=
  match resolve env t with
  | Term.compound _ as =>
      match resolve env nth with
      | Term.var v =>
          delayF none ((List.range as.length).map (fun i => fun _ =>
            Unify (Term.compound "" [Term.var v, arg])
              (Term.compound "" [Term.int (Int.ofNat (i + 1)),
                as.getD i (Term.atom "")]) k env))
      | Term.int n =>
          if n = 0 ∨ (as.length : Int) ≤ n then Prom.fls
          else if n < 0 then
            Prom.err (PErr.domainE "not_less_than_zero" (Term.int n))
          else Unify arg (as.getD (n.toNat - 1) (Term.atom "")) k env
      | other => Prom.err (PErr.typeE "integer" other)
  | _ => Prom.err (PErr.typeE "compound" t)

/-- C10: with an Integer index `n` into a compound of arity `len`, Arg
fails for `n = 0` and for every `n ≥ len` (so the last argument position
`len` is unreachable), raises a domain error for negative `n`, and only
for `1 ≤ n < len` unifies `arg` with the argument stored before position
`n`. -/
theorem arg_integer_index_cases (env : Env) (t nth arg : Term)
    (k : Env → Prom) (f : String) (as : List Term) (n : Int)
    (ht : resolve env t = Term.compound f as)
    (hn : resolve env nth = Term.int n) :
    ((n = 0 ∨ (as.length : Int) ≤ n) → Arg nth t arg k env = Prom.fls) ∧
      (n < 0 → Arg nth t arg k env =
        Prom.err (PErr.domainE "not_less_than_zero" (Term.int n))) ∧
      (1 ≤ n → n < (as.length : Int) →
        Arg nth t arg k env =
          Unify arg (as.getD (n.toNat - 1) (Term.atom "")) k env) := by
  refine ⟨?_, ?_, ?_⟩
  · intro hcase
    simp only [Arg, ht, hn]
    rw [if_pos hcase]
  · intro hneg
    simp only [Arg, ht, hn]
    rw [if_neg (by omega), if_pos hneg]
  · intro h1 h2
    simp only [Arg, ht, hn]
    rw [if_neg (by omega), if_neg (by omega)]

/-- C10 witness: the theorem applied to `f(x, y)` — index 2 (the last
position) and index 0 fail, index -1 raises the domain error, and index 1
unifies with the first argument. -/
theorem arg_integer_index_cases_witness :
    (Arg (Term.int 2) (Term.compound "f" [Term.atom "x", Term.atom "y"])
        (Term.var 9) Prom.tru ⟨[], 10⟩ = Prom.fls) ∧
      (Arg (Term.int 0) (Term.compound "f" [Term.atom "x", Term.atom "y"])
        (Term.var 9) Prom.tru ⟨[], 10⟩ = Prom.fls) ∧
      (Arg (Term.int (-1))
          (Term.compound "f" [Term.atom "x", Term.atom "y"])
          (Term.var 9) Prom.tru ⟨[], 10⟩ =
        Prom.err (PErr.domainE "not_less_than_zero" (Term.int (-1)))) ∧
      (Arg (Term.int 1) (Term.compound "f" [Term.atom "x", Term.atom "y"])
          (Term.var 9) Prom.tru ⟨[], 10⟩ =
        Unify (Term.var 9) (Term.atom "x") Prom.tru ⟨[], 10⟩) :=
  ⟨(arg_integer_index_cases ⟨[], 10⟩
        (Term.compound "f" [Term.atom "x", Term.atom "y"]) (Term.int 2)
        (Term.var 9) Prom.tru "f" [Term.atom "x", Term.atom "y"] 2 rfl
        rfl).1 (Or.inr (by decide)),
    (arg_integer_index_cases ⟨[], 10⟩
        (Term.compound "f" [Term.atom "x", Term.atom "y"]) (Term.int 0)
        (Term.var 9) Prom.tru "f" [Term.atom "x", Term.atom "y"] 0 rfl
        rfl).1 (Or.inl rfl),
    (arg_integer_index_cases ⟨[], 10⟩
        (Term.compound "f" [Term.atom "x", Term.atom "y"])
        (Term.int (-1)) (Term.var 9) Prom.tru "f"
        [Term.atom "x", Term.atom "y"] (-1) rfl rfl).2.1 (by decide),
    (arg_integer_index_cases ⟨[], 10⟩
        (Term.compound "f" [Term.atom "x", Term.atom "y"]) (Term.int 1)
        (Term.var 9) Prom.tru "f" [Term.atom "x", Term.atom "y"] 1 rfl
        rfl).2.2 (by decide) (by decide)⟩

/-- SolG is one solution group of `collectionOf`: the snapshot of the
grouping variables and the bag of collected template copies. -/
structure SolG where
  snapshots : List Term
  bag : List Term

/-- snapshotsMatch is the inner loop of the solution callback: every
grouping-variable snapshot must compare equal (`Compare` with order `=`
succeeds exactly when `compare` returns 0). -/
def snapshotsMatch (a b : List Term) : Bool :=
  (a.zip b).all (fun p => compare p.1 p.2 == 0)

/-- addSolution is the body of the solution callback of
`EngineState.collectionOf` (builtin.go lines 440-466): the template copy
joins the first group whose snapshots all compare equal, otherwise a new
group is appended. -/
def addSolution (sols : List SolG) (snap : List Term) (tmpl : Term) :
    List SolG :=
  match sols with
  | [] => [⟨snap, [tmpl]⟩]
  | s :: rest =>
      if snapshotsMatch s.snapshots snap then
        ⟨s.snapshots, s.bag ++ [tmpl]⟩ :: rest
      else s :: addSolution rest snap tmpl

/-- collectGroups folds the stream of solutions produced by executing the
goal (each solution contributes its grouping snapshot and a copy of the
template) into the group list, in solution order.  The goal execution
itself is the engine's `Call`; its solution stream is the input here. -/
def collectGroups (evs : List (List Term × Term)) : List SolG :=
  evs.foldl (fun acc ev => addSolution acc ev.1 ev.2) []

/-- CollectionResult is the outcome of `collectionOf` after the goal has
been exhausted: fail (`Bool(false)`), or one alternative per group. -/
inductive CollectionResult where
  | failR : CollectionResult
  | altsR : List SolG → CollectionResult

/-- collectionOfR is the decision at builtin.go lines 471-492: no solution
means `Bool(false)`; otherwise one alternative per group is presented,
each unifying the instances argument with the aggregated bag. -/
def collectionOfR (evs : List (List Term × Term)) : CollectionResult :=
  match collectGroups evs with
  | [] => CollectionResult.failR
  | gs => CollectionResult.altsR gs

/-- insertT inserts into a list sorted by the standard order. -/
def insertT (t : Term) : List Term → List Term
  | [] => [t]
  | b :: bs => if compare t b ≤ 0 then t :: b :: bs else b :: insertT t bs

/-- sortTerms sorts by the standard order of terms. -/
def sortTerms (ts : List Term) : List Term :=
  ts.foldr insertT []

/-- dedupTerms removes adjacent duplicates (terms comparing equal). -/
def dedupTerms : List Term → List Term
  | [] => []
  | [x] => [x]
  | x :: y :: rest =>
      if compare x y == 0 then dedupTerms (x :: rest)
      else x :: dedupTerms (y :: rest)

/-- setTerm models `term.Set` (absent from src/; modelled from the spec:
the bag sorted by the standard order and deduplicated), as used by
SetOf. -/
def setTerm (ts : List Term) : Term :=
  listTerm (dedupTerms (sortTerms ts))

theorem addSolution_ne_nil (sols : List SolG) (snap : List Term)
    (tmpl : Term) : addSolution sols snap tmpl ≠ [] := by
  cases sols with
  | nil => simp [addSolution]
  | cons s rest =>
      rw [addSolution]
      split <;> simp

theorem collectGroups_go_ne_nil (evs : List (List Term × Term))
    (acc : List SolG) (hacc : acc ≠ []) :
    evs.foldl (fun a ev => addSolution a ev.1 ev.2) acc ≠ [] := by
  induction evs generalizing acc with
  | nil => simpa
  | cons e es ih => exact ih _ (addSolution_ne_nil _ _ _)

theorem addSolution_bags {sols : List SolG} {snap : List Term}
    {tmpl : Term} (h : ∀ g ∈ sols, g.bag ≠ []) :
    ∀ g ∈ addSolution sols snap tmpl, g.bag ≠ [] := by
  induction sols with
  | nil =>
      intro g hg
      rw [addSolution] at hg
      rcases List.mem_singleton.mp hg with rfl
      simp
  | cons s rest ih =>
      intro g hg
      rw [addSolution] at hg
      by_cases hm : snapshotsMatch s.snapshots snap = true
      · rw [if_pos hm] at hg
        rcases List.mem_cons.mp hg with rfl | hg2
        · simp
        · exact h g (List.mem_cons_of_mem _ hg2)
      · rw [if_neg hm] at hg
        rcases List.mem_cons.mp hg with rfl | hg2
        · exact h g (List.mem_cons_self _ _)
        · exact ih (fun x hx => h x (List.mem_cons_of_mem _ hx)) g hg2

theorem collectGroups_go_bags (evs : List (List Term × Term))
    (acc : List SolG) (hacc : ∀ g ∈ acc, g.bag ≠ []) :
    ∀ g ∈ evs.foldl (fun a ev => addSolution a ev.1 ev.2) acc,
      g.bag ≠ [] := by
  induction evs generalizing acc with
  | nil => simpa
  | cons e es ih => exact ih _ (addSolution_bags hacc)

theorem insertT_ne_nil (t : Term) (l : List Term) : insertT t l ≠ [] := by
  cases l with
  | nil => simp [insertT]
  | cons b bs =>
      rw [insertT]
      split <;> simp

theorem sortTerms_ne_nil {ts : List Term} (h : ts ≠ []) :
    sortTerms ts ≠ [] := by
  cases ts with
  | nil => exact absurd rfl h
  | cons a as => exact insertT_ne_nil a _

theorem dedupTerms_ne_nil : ∀ {l : List Term}, l ≠ [] → dedupTerms l ≠ [] := by
  intro l
  induction l using dedupTerms.induct with
  | case1 => intro h; exact absurd rfl h
  | case2 x => intro _; simp [dedupTerms]
  | case3 x y rest hc ih =>
      intro _
      rw [dedupTerms, if_pos hc]
      exact ih (by simp)
  | case4 x y rest hc ih =>
      intro _
      rw [dedupTerms, if_neg hc]
      simp

theorem setTerm_ne_nil_atom {ts : List Term} (h : ts ≠ []) :
    setTerm ts ≠ Term.atom "[]" := by
  rw [setTerm]
  rcases hd : dedupTerms (sortTerms ts) with _ | ⟨x, xs⟩
  · exact absurd hd (dedupTerms_ne_nil (sortTerms_ne_nil h))
  · simp [listTerm]

/-- C7: collectionOf (the common engine of BagOf and SetOf) fails exactly
when executing the goal produced no solution; when solutions exist it
presents one alternative per group, and every group's bag is nonempty, so
the instances argument is never unified with the empty list — neither by
BagOf's `List` aggregation nor by SetOf's sorted deduplicated `Set`
aggregation. -/
theorem collectionOf_no_solution_fails (evs : List (List Term × Term)) :
    (collectionOfR evs = CollectionResult.failR ↔ evs = []) ∧
      (evs ≠ [] →
        collectionOfR evs = CollectionResult.altsR (collectGroups evs)) ∧
      (∀ g ∈ collectGroups evs, g.bag ≠ [] ∧
        listTerm g.bag ≠ Term.atom "[]" ∧ setTerm g.bag ≠ Term.atom "[]") := by
  have hbags : ∀ g ∈ collectGroups evs, g.bag ≠ [] :=
    collectGroups_go_bags evs [] (by intro g hg; cases hg)
  refine ⟨⟨?_, ?_⟩, ?_, ?_⟩
  · intro hfail
    by_contra hne
    rcases evs with _ | ⟨e, es⟩
    · exact hne rfl
    · have hval : collectGroups (e :: es) ≠ [] := by
        rw [collectGroups, List.foldl_cons]
        exact collectGroups_go_ne_nil es _ (addSolution_ne_nil _ _ _)
      rw [collectionOfR] at hfail
      rcases hg : collectGroups (e :: es) with _ | ⟨g, gs⟩
      · exact hval hg
      · rw [hg] at hfail
        cases hfail
  · rintro rfl
    rfl
  · intro hne
    have hval : collectGroups evs ≠ [] := by
      rcases evs with _ | ⟨e, es⟩
      · exact absurd rfl hne
      · rw [collectGroups, List.foldl_cons]
        exact collectGroups_go_ne_nil es _ (addSolution_ne_nil _ _ _)
    rcases hg : collectGroups evs with _ | ⟨g, gs⟩
    · exact absurd hg hval
    · simp only [collectionOfR]
      rw [hg]
  · intro g hg
    refine ⟨hbags g hg, ?_, setTerm_ne_nil_atom (hbags g hg)⟩
    rcases hb : g.bag with _ | ⟨x, xs⟩
    · exact absurd hb (hbags g hg)
    · simp [listTerm]

/-- C7 witness: one solution with an empty grouping snapshot yields one
group whose bag is the single template copy, and the aggregations of that
bag are not the empty list. -/
theorem collectionOf_no_solution_fails_witness :
    (collectionOfR [([], Term.atom "x")] = CollectionResult.failR ↔
        ([([], Term.atom "x")] :
          List (List Term × Term)) = []) ∧
      ((⟨[], [Term.atom "x"]⟩ : SolG) ∈
          collectGroups [([], Term.atom "x")] ∧
        listTerm [Term.atom "x"] ≠ Term.atom "[]" ∧
        setTerm [Term.atom "x"] ≠ Term.atom "[]") := by
  have hmem : (⟨[], [Term.atom "x"]⟩ : SolG) ∈
      collectGroups [([], Term.atom "x")] := by
    rw [collectGroups, List.foldl_cons, List.foldl_nil, addSolution]
    exact List.mem_singleton.mpr rfl
  have h := collectionOf_no_solution_fails [([], Term.atom "x")]
  have h2 := h.2.2 _ hmem
  exact ⟨h.1, hmem, h2.2.1, h2.2.2⟩

/-- gfNeg is float64 negation. -/
def gfNeg : GoFloat → GoFloat
  | GoFloat.finite a => GoFloat.finite ⟨-a.num, a.den⟩
  | GoFloat.posInf => GoFloat.negInf
  | GoFloat.negInf => GoFloat.posInf
  | GoFloat.nan => GoFloat.nan

/-- gfAbs models `math.Abs`. -/
def gfAbs : GoFloat → GoFloat
  | GoFloat.finite a => GoFloat.finite ⟨|a.num|, a.den⟩
  | GoFloat.posInf => GoFloat.posInf
  | GoFloat.negInf => GoFloat.posInf
  | GoFloat.nan => GoFloat.nan

/-- gfAdd is float64 addition on the model. -/
def gfAdd : GoFloat → GoFloat → GoFloat
  | GoFloat.finite a, GoFloat.finite b =>
      GoFloat.finite ⟨a.num * b.den + b.num * a.den, a.den * b.den⟩
  | GoFloat.finite _, GoFloat.posInf => GoFloat.posInf
  | GoFloat.finite _, GoFloat.negInf => GoFloat.negInf
  | GoFloat.posInf, GoFloat.finite _ => GoFloat.posInf
  | GoFloat.negInf, GoFloat.finite _ => GoFloat.negInf
  | GoFloat.posInf, GoFloat.posInf => GoFloat.posInf
  | GoFloat.negInf, GoFloat.negInf => GoFloat.negInf
  | GoFloat.posInf, GoFloat.negInf => GoFloat.nan
  | GoFloat.negInf, GoFloat.posInf => GoFloat.nan
  | GoFloat.nan, _ => GoFloat.nan
  | _, GoFloat.nan => GoFloat.nan

/-- gfMul is float64 multiplication on the model (infinity sign rules
abbreviated through the finite representative's numerator sign). -/
def gfMul : GoFloat → GoFloat → GoFloat
  | GoFloat.finite a, GoFloat.finite b =>
      GoFloat.finite ⟨a.num * b.num, a.den * b.den⟩
  | GoFloat.finite a, GoFloat.posInf =>
      if a.num = 0 then GoFloat.nan
      else if 0 < a.num then GoFloat.posInf else GoFloat.negInf
  | GoFloat.finite a, GoFloat.negInf =>
      if a.num = 0 then GoFloat.nan
      else if 0 < a.num then GoFloat.negInf else GoFloat.posInf
  | GoFloat.posInf, GoFloat.finite b =>
      if b.num = 0 then GoFloat.nan
      else if 0 < b.num then GoFloat.posInf else GoFloat.negInf
  | GoFloat.negInf, GoFloat.finite b =>
      if b.num = 0 then GoFloat.nan
      else if 0 < b.num then GoFloat.negInf else GoFloat.posInf
  | GoFloat.posInf, GoFloat.posInf => GoFloat.posInf
  | GoFloat.negInf, GoFloat.negInf => GoFloat.posInf
  | GoFloat.posInf, GoFloat.negInf => GoFloat.negInf
  | GoFloat.negInf, GoFloat.posInf => GoFloat.negInf
  | GoFloat.nan, _ => GoFloat.nan
  | _, GoFloat.nan => GoFloat.nan

/-- gfDiv is float64 division on the model: IEEE yields a signed infinity
when a nonzero finite value is divided by zero, NaN for 0/0, and zero for
a finite value divided by an infinity (the model has no signed zero). -/
def gfDiv : GoFloat → GoFloat → GoFloat
  | GoFloat.finite a, GoFloat.finite b =>
      if b.num = 0 then
        if a.num = 0 then GoFloat.nan
        else if 0 < a.num then GoFloat.posInf
        else GoFloat.negInf
      else
        let n := a.num * b.den
        let d := a.den * b.num
        if d < 0 then GoFloat.finite ⟨-n, -d⟩ else GoFloat.finite ⟨n, d⟩
  | GoFloat.finite _, GoFloat.posInf => GoFloat.finite ⟨0, 1⟩
  | GoFloat.finite _, GoFloat.negInf => GoFloat.finite ⟨0, 1⟩
  | GoFloat.posInf, GoFloat.finite b =>
      if b.num < 0 then GoFloat.negInf else GoFloat.posInf
  | GoFloat.negInf, GoFloat.finite b =>
      if b.num < 0 then GoFloat.posInf else GoFloat.negInf
  | GoFloat.posInf, GoFloat.posInf => GoFloat.nan
  | GoFloat.posInf, GoFloat.negInf => GoFloat.nan
  | GoFloat.negInf, GoFloat.posInf => GoFloat.nan
  | GoFloat.negInf, GoFloat.negInf => GoFloat.nan
  | GoFloat.nan, _ => GoFloat.nan
  | _, GoFloat.nan => GoFloat.nan

/-- gfCeil models `math.Ceil` (exact on the rational model). -/
def gfCeil : GoFloat → GoFloat
  | GoFloat.finite a => GoFloat.finite ⟨-(Int.ediv (-a.num) a.den), 1⟩
  | f => f

/-- gfFloor models `math.Floor`. -/
def gfFloor : GoFloat → GoFloat
  | GoFloat.finite a => GoFloat.finite ⟨Int.ediv a.num a.den, 1⟩
  | f => f

/-- gfTruncF models `math.Trunc` (toward zero). -/
def gfTruncF : GoFloat → GoFloat
  | GoFloat.finite a => GoFloat.finite ⟨fvTrunc a, 1⟩
  | f => f

/-- gfRound models `math.Round` (half away from zero). -/
def gfRound : GoFloat → GoFloat
  | GoFloat.finite a =>
      if 0 ≤ a.num then
        GoFloat.finite ⟨Int.ediv (2 * a.num + a.den) (2 * a.den), 1⟩
      else GoFloat.finite ⟨-(Int.ediv (2 * (-a.num) + a.den) (2 * a.den)), 1⟩
  | f => f

/-- sgn is the integer sign; the Go source computes it with a bit trick
on int64 that is equal to this case split. -/
def sgn (i : Int) : Int :=
  if 0 < i then 1 else if i < 0 then -1 else 0

/-- sgnf is the float sign of the source (builtin.go 2159-2170): -1, 0, 1
or NaN for NaN. -/
def sgnf : GoFloat → GoFloat
  | GoFloat.finite a =>
      if a.num < 0 then GoFloat.finite ⟨-1, 1⟩
      else if a.num = 0 then GoFloat.finite ⟨0, 1⟩
      else GoFloat.finite ⟨1, 1⟩
  | GoFloat.posInf => GoFloat.finite ⟨1, 1⟩
  | GoFloat.negInf => GoFloat.finite ⟨-1, 1⟩
  | GoFloat.nan => GoFloat.nan

/-- toU64 reads an integer as the unsigned word of its two's-complement
int64 representation. -/
def toU64 (i : Int) : Nat :=
  (i % 2 ^ 64).toNat

/-- ofU64 reads an unsigned 64-bit word back as an int64 value. -/
def ofU64 (n : Nat) : Int :=
  if n < 2 ^ 63 then (n : Int) else (n : Int) - 2 ^ 64

/-- i64land is Go `&` on int64. -/
def i64land (a b : Int) : Int :=
  ofU64 (Nat.land (toU64 a) (toU64 b))

/-- i64lor is Go `|` on int64. -/
def i64lor (a b : Int) : Int :=
  ofU64 (Nat.lor (toU64 a) (toU64 b))

/-- i64not is Go `^i` (bitwise complement) on int64. -/
def i64not (i : Int) : Int :=
  -(i + 1)

/-- TransFns carries the transcendental float64 functions of the Go math
package (atan, cos, exp, sqrt, log, sin, pow), which have no computable
exact rational model; the evaluator is parametric in them and no claim
depends on their values. -/
structure TransFns where
  atanF : GoFloat → GoFloat
  cosF : GoFloat → GoFloat
  expF : GoFloat → GoFloat
  sqrtF : GoFloat → GoFloat
  logF : GoFloat → GoFloat
  sinF : GoFloat → GoFloat
  powF : GoFloat → GoFloat → GoFloat

/-- noTransFns is one concrete (arbitrary) interpretation of the
transcendental functions, used for closed evaluations. -/
def noTransFns : TransFns :=
  ⟨fun _ => GoFloat.nan, fun _ => GoFloat.nan, fun _ => GoFloat.nan,
    fun _ => GoFloat.nan, fun _ => GoFloat.nan, fun _ => GoFloat.nan,
    fun _ _ => GoFloat.nan⟩

/-- FunctionSet is the evaluable-functor table of builtin.go: the Go maps
become partial functions from functor names. -/
structure FunctionSet where
  Unary : String → Option (Term → Except PErr Term)
  Binary : String → Option (Term → Term → Except PErr Term)

/-- unaryInteger (builtin.go 2172-2181): the argument must be an Integer.
The arguments reaching these combinators are already evaluated numbers, so
`Resolve` is the identity and is omitted. -/
def unaryInteger (f : Int → Int) : Term → Except PErr Term := fun x =>
  match x with
  | Term.int i => Except.ok (Term.int (f i))
  | x => Except.error (PErr.typeE "integer" x)

/-- binaryInteger (builtin.go 2183-2197): both arguments must be
Integers.  The payload function returns `Except` so that the divide-by-zero
panic of the Go payloads — recovered by `eval` into
evaluation_error(zero_divisor) — can be signalled at its site. -/
def binaryInteger (f : Int → Int → Except PErr Int) :
    Term → Term → Except PErr Term := fun x y =>
  match x with
  | Term.int i =>
      match y with
      | Term.int j => (f i j).map Term.int
      | y => Except.error (PErr.typeE "integer" y)
  | x => Except.error (PErr.typeE "integer" x)

/-- unaryFloat (builtin.go 2199-2210): an Integer is converted to float64
first. -/
def unaryFloat (f : GoFloat → GoFloat) : Term → Except PErr Term := fun x =>
  match x with
  | Term.int i => Except.ok (Term.float (f (intToGf i)))
  | Term.float a => Except.ok (Term.float (f a))
  | x => Except.error (PErr.typeE "evaluable" x)

/-- binaryFloat (builtin.go 2212-2237): both arguments are converted to
float64 and the result is always a Float. -/
def binaryFloat (f : GoFloat → GoFloat → GoFloat) :
    Term → Term → Except PErr Term := fun x y =>
  match x with
  | Term.int i =>
      match y with
      | Term.int j => Except.ok (Term.float (f (intToGf i) (intToGf j)))
      | Term.float b => Except.ok (Term.float (f (intToGf i) b))
      | y => Except.error (PErr.typeE "evaluable" y)
  | Term.float a =>
      match y with
      | Term.int j => Except.ok (Term.float (f a (intToGf j)))
      | Term.float b => Except.ok (Term.float (f a b))
      | y => Except.error (PErr.typeE "evaluable" y)
  | x => Except.error (PErr.typeE "evaluable" x)

/-- unaryNumber (builtin.go 2239-2250): Integers stay Integers, Floats
stay Floats. -/
def unaryNumber (fi : Int → Int) (ff : GoFloat → GoFloat) :
    Term → Except PErr Term := fun x =>
  match x with
  | Term.int i => Except.ok (Term.int (fi i))
  | Term.float a => Except.ok (Term.float (ff a))
  | x => Except.error (PErr.typeE "evaluable" x)

/-- binaryNumber (builtin.go 2252-2277): two Integers yield an Integer,
any Float makes the result a Float. -/
def binaryNumber (fi : Int → Int → Int) (ff : GoFloat → GoFloat → GoFloat) :
    Term → Term → Except PErr Term := fun x y =>
  match x with
  | Term.int i =>
      match y with
      | Term.int j => Except.ok (Term.int (fi i j))
      | Term.float b => Except.ok (Term.float (ff (intToGf i) b))
      | y => Except.error (PErr.typeE "evaluable" y)
  | Term.float a =>
      match y with
      | Term.int j => Except.ok (Term.float (ff a (intToGf j)))
      | Term.float b => Except.ok (Term.float (ff a b))
      | y => Except.error (PErr.typeE "evaluable" y)
  | x => Except.error (PErr.typeE "evaluable" x)

/-- zeroDiv signals the Go run-time panic `integer divide by zero`, which
`eval`'s deferred recover turns into evaluation_error(zero_divisor)
(builtin.go 2067-2077); the model raises the recovered error at the
site. -/
def zeroDiv (f : Int → Int → Int) : Int → Int → Except PErr Int :=
  fun i j =>
    if j = 0 then Except.error (PErr.evaluationE "zero_divisor")
    else Except.ok (f i j)

/-- DefaultFunctionSet is the builtin function table (builtin.go
2120-2153), parametric in the transcendental float functions.  Integer
arithmetic wraps as int64; `/` is always float division (binaryFloat);
`//`, `rem` and `mod` panic on a zero divisor, recovered into
evaluation_error(zero_divisor).  A negative shift count, which makes Go
panic without recovery, is modelled as a system error; no claim touches
it. -/
def DefaultFunctionSet (tf : TransFns) : FunctionSet where
  Unary := fun a =>
    if a = "-" then some (unaryNumber (fun i => wrap64 (-1 * i)) gfNeg)
    else if a = "abs" then some (unaryFloat gfAbs)
    else if a = "atan" then some (unaryFloat tf.atanF)
    else if a = "ceiling" then some (unaryFloat gfCeil)
    else if a = "cos" then some (unaryFloat tf.cosF)
    else if a = "exp" then some (unaryFloat tf.expF)
    else if a = "sqrt" then some (unaryFloat tf.sqrtF)
    else if a = "sign" then some (unaryNumber sgn sgnf)
    else if a = "float" then some (unaryFloat (fun n => n))
    else if a = "floor" then some (unaryFloat gfFloor)
    else if a = "log" then some (unaryFloat tf.logF)
    else if a = "sin" then some (unaryFloat tf.sinF)
    else if a = "truncate" then some (unaryFloat gfTruncF)
    else if a = "round" then some (unaryFloat gfRound)
    else if a = "\\" then some (unaryInteger i64not)
    else none
  Binary := fun a =>
    if a = "+" then some (binaryNumber (fun i j => wrap64 (i + j)) gfAdd)
    else if a = "-" then some (binaryNumber (fun i j => wrap64 (i - j)) gfSub)
    else if a = "*" then some (binaryNumber (fun i j => wrap64 (i * j)) gfMul)
    else if a = "/" then some (binaryFloat gfDiv)
    else if a = "//" then
      some (binaryInteger (zeroDiv (fun i j => wrap64 (Int.tdiv i j))))
    else if a = "rem" then
      some (binaryInteger (zeroDiv (fun i j => Int.tmod i j)))
    else if a = "mod" then
      some (binaryInteger
        (zeroDiv (fun i j => wrap64 (Int.tmod (wrap64 (Int.tmod i j + j)) j))))
    else if a = "**" then some (binaryFloat tf.powF)
    else if a = ">>" then
      some (binaryInteger (fun i j =>
        if j < 0 then Except.error (PErr.systemE "negative shift amount")
        else Except.ok (Int.ediv i (2 ^ j.toNat))))
    else if a = "<<" then
      some (binaryInteger (fun i j =>
        if j < 0 then Except.error (PErr.systemE "negative shift amount")
        else Except.ok (wrap64 (i * 2 ^ j.toNat))))
    else if a = "/\\" then some (binaryInteger (fun i j => Except.ok (i64land i j)))
    else if a = "\\/" then some (binaryInteger (fun i j => Except.ok (i64lor i j)))
    else none

/-- FunctionSet.eval is the arithmetic evaluator (builtin.go 2066-2118) on
already-resolved expressions: a variable is an instantiation error, an
atom is not evaluable, numbers evaluate to themselves, and a compound of
arity 1 or 2 looks up its functor and evaluates its arguments first.  The
Nat argument is recursion gas (the Go recursion is structural); ample gas
reproduces the source exactly. -/
def FunctionSet.eval (fs : FunctionSet) : Nat → Term → Except PErr Term
  | 0, _ => Except.error (PErr.systemE "recursion gas exhausted")
  | n + 1, t =>
      match t with
      | Term.var _ => Except.error (PErr.instantiation t)
      | Term.atom _ => Except.error (PErr.typeE "evaluable" t)
      | Term.int i => Except.ok (Term.int i)
      | Term.float f => Except.ok (Term.float f)
      | Term.compound f args =>
          match args with
          | [x] =>
              match fs.Unary f with
              | none => Except.error (PErr.typeE "evaluable" t)
              | some g =>
                  match fs.eval n x with
                  | Except.error e => Except.error e
                  | Except.ok xv => g xv
          | [x, y] =>
              match fs.Binary f with
              | none => Except.error (PErr.typeE "evaluable" t)
              | some g =>
                  match fs.eval n x with
                  | Except.error e => Except.error e
                  | Except.ok xv =>
                      match fs.eval n y with
                      | Except.error e => Except.error e
                      | Except.ok yv => g xv yv
          | _ => Except.error (PErr.typeE "evaluable" t)

/-- C2 counterexample: with the default function set, `1 / 0` evaluates
successfully to Float(+Inf) — `/` is float division and IEEE division of
1.0 by 0.0 is +Inf — instead of raising evaluation_error(zero_divisor). -/
theorem eval_one_div_zero_succeeds :
    (DefaultFunctionSet noTransFns).eval 2
        (Term.compound "/" [Term.int 1, Term.int 0]) =
      Except.ok (Term.float GoFloat.posInf) := rfl

/-- C2 amended: `X is 1 / 0` succeeds with Float(+Inf), because the
default `/` is float division; the evaluation_error(zero_divisor)
exception is raised by the integer division `1 // 0` (whose Go
divide-by-zero panic `eval` recovers into that error), for any
interpretation of the transcendental functions and any sufficient
recursion gas. -/
theorem eval_div_zero_amended (tf : TransFns) (g : Nat) :
    (DefaultFunctionSet tf).eval (g + 2)
        (Term.compound "/" [Term.int 1, Term.int 0]) =
      Except.ok (Term.float GoFloat.posInf) ∧
    (DefaultFunctionSet tf).eval (g + 2)
        (Term.compound "//" [Term.int 1, Term.int 0]) =
      Except.error (PErr.evaluationE "zero_divisor") :=
  ⟨rfl, rfl⟩

/-- C2 witness: the amended theorem at a concrete interpretation and
gas. -/
theorem eval_div_zero_amended_witness :
    (DefaultFunctionSet noTransFns).eval 2
        (Term.compound "/" [Term.int 1, Term.int 0]) =
      Except.ok (Term.float GoFloat.posInf) ∧
    (DefaultFunctionSet noTransFns).eval 2
        (Term.compound "//" [Term.int 1, Term.int 0]) =
      Except.error (PErr.evaluationE "zero_divisor") :=
  eval_div_zero_amended noTransFns 0

/-- StreamMode is the stream mode enumeration of the source. -/
inductive StreamMode where
  | read : StreamMode
  | write : StreamMode
  | append : StreamMode

/-- EofAction is the eof_action enumeration of the source. -/
inductive EofAction where
  | errorAct : EofAction
  | eofCode : EofAction
  | reset : EofAction

/-- StreamType is the stream type enumeration of the source. -/
inductive StreamType where
  | text : StreamType
  | binary : StreamType

/-- StreamModel carries the observable state of a `Stream` that
`StreamProperty` reads: mode, optional alias (empty string for none),
eof action, whether a source/sink is attached and buffered, the file
name/position/size when the stream is backed by a file (the `os.File`
Seek/Stat results become stored values), the reposition flag, and the
stream type. -/
structure StreamModel where
  mode : StreamMode
  aliasName : String
  eofAction : EofAction
  hasSource : Bool
  sourceBuffered : Bool
  hasSink : Bool
  sinkBuffered : Bool
  fileInfo : Option (String × Int × Int)
  reposition : Bool
  streamType : StreamType

/-- streamProperties is the per-stream property-list construction of
`EngineState.StreamProperty` (builtin.go lines 2341-2423), in source
order; for the stream type the source emits `type(text)` for a text
stream and `type(false)` — the atom `false`, not `binary` — for a binary
stream (line 2422). -/
def streamProperties (s : StreamModel) : List Term :=
  (match s.mode with
    | StreamMode.read => [Term.compound "mode" [Term.atom "read"]]
    | StreamMode.write => [Term.compound "mode" [Term.atom "write"]]
    | StreamMode.append => [Term.compound "mode" [Term.atom "append"]]) ++
  (if s.aliasName ≠ "" then
      [Term.compound "alias" [Term.atom s.aliasName]]
    else []) ++
  (match s.eofAction with
    | EofAction.errorAct => [Term.compound "eof_action" [Term.atom "error"]]
    | EofAction.eofCode =>
        [Term.compound "eof_action" [Term.atom "eof_code"]]
    | EofAction.reset => [Term.compound "eof_action" [Term.atom "reset"]]) ++
  (if s.hasSource then
      [Term.atom "input",
        Term.compound "buffer"
          [Term.atom (if s.sourceBuffered then "true" else "false")]]
    else []) ++
  (if s.hasSink then
      [Term.atom "output",
        Term.compound "buffer"
          [Term.atom (if s.sinkBuffered then "true" else "false")]]
    else []) ++
  (match s.fileInfo with
    | some (nm, pos, size) =>
        [Term.compound "file_name" [Term.atom nm],
          Term.compound "position" [Term.int pos],
          Term.compound "end_of_stream"
            [Term.atom
              (if pos = size then "at" else if pos > size then "past"
                else "not")]]
    | none => []) ++
  [Term.compound "reposition"
      [Term.atom (if s.reposition then "true" else "false")]] ++
  (match s.streamType with
    | StreamType.text => [Term.compound "type" [Term.atom "text"]]
    | StreamType.binary => [Term.compound "type" [Term.atom "false"]])

/-- binaryStreamDemo is a concrete binary input stream. -/
def binaryStreamDemo : StreamModel :=
  ⟨StreamMode.read, "in", EofAction.eofCode, true, false, false, false,
    none, false, StreamType.binary⟩

/-- C9: for a binary stream the emitted stream properties contain
type(false) and do not contain type(binary) — the source conflates the
`type(binary)` atom with `false`, so the type/1 property's argument is the
atom `false` where the spec requires `binary`. -/
theorem stream_property_binary_type_is_false :
    (Term.compound "type" [Term.atom "false"]) ∈
        streamProperties binaryStreamDemo ∧
      (Term.compound "type" [Term.atom "binary"]) ∉
        streamProperties binaryStreamDemo := by
  constructor
  · simp [streamProperties, binaryStreamDemo]
  · simp [streamProperties, binaryStreamDemo]

/-- freshVars allocates `n` fresh variables. -/
def freshVars : Nat → Env → List Nat × Env
  | 0, env => ([], env)
  | n + 1, env =>
      let (v, e1) := newVar env
      let (vs, e2) := freshVars n e1
      (v :: vs, e2)

/-- eachTerms is `Each` (part_000 lines 476-499) specialized to its use in
Univ (collecting the elements): walk a list term, an unbound tail is an
instantiation error on the whole list, a non-list is a type error.  The
Nat argument is recursion gas. -/
def eachTerms : Nat → Env → Term → Term → Except PErr (List Term)
  | 0, _, _, _ => Except.error (PErr.systemE "recursion gas exhausted")
  | n + 1, env, whole, t =>
      match resolve env t with
      | Term.var _ => Except.error (PErr.instantiation whole)
      | Term.atom a =>
          if a = "[]" then Except.ok []
          else Except.error (PErr.typeE "list" (Term.atom a))
      | Term.compound "." [hd, tl] =>
          (eachTerms n env whole tl).map (fun es => hd :: es)
      | other => Except.error (PErr.typeE "list" other)

/-- Functor is the builtin of builtin.go (lines 90-135): extract the name
and arity of a compound or atomic term, or construct a term from a name
and arity, allocating fresh variables for the arguments. -/
def Functor (t name arity : Term) (k : Env → Prom) (env : Env) : Prom :=
  match resolve env t with
  | Term.var v =>
      match resolve env arity with
      | Term.int a =>
          if a < 0 then
            Prom.err (PErr.domainE "not_less_than_zero" (Term.int a))
          else if a = 0 then Unify (Term.var v) name k env
          else
            match resolve env name with
            | Term.atom nm =>
                let (vs, env2) := freshVars a.toNat env
                Unify (Term.var v) (Term.compound nm (vs.map Term.var)) k env2
            | _ => Prom.err (PErr.typeE "atom" name)
      | _ => Prom.err (PErr.typeE "integer" arity)
  | Term.compound f as =>
      Unify (Term.compound "" [name, arity])
        (Term.compound "" [Term.atom f, Term.int (Int.ofNat as.length)])
        k env
  | other =>
      Unify (Term.compound "" [name, arity])
        (Term.compound "" [other, Term.int 0]) k env

/-- Univ is the builtin of builtin.go (lines 174-214): decompose a term
into the functor-and-arguments list, or build a term from such a list.
The head of the list is type-asserted to an Atom without resolving, as in
the source. -/
def Univ (t list : Term) (k : Env → Prom) (env : Env) : Prom :=
  match resolve env t with
  | Term.var _ =>
      match resolve env list with
      | Term.atom "[]" =>
          Prom.err (PErr.domainE "non_empty_list" (Term.atom "[]"))
      | Term.compound "." [hd, tl] =>
          match hd with
          | Term.atom f =>
              match eachTerms (unifyFuel env + 64) env tl tl with
              | Except.error e => Prom.err e
              | Except.ok args => Unify t (Term.compound f args) k env
          | _ => Prom.err (PErr.typeE "atom" hd)
      | other => Prom.err (PErr.typeE "list" other)
  | Term.compound f as => Unify list (listTerm (Term.atom f :: as)) k env
  | other => Unify list (listTerm [other]) k env

/-- UnknownAction is the `unknown` flag of the VM (part_000 lines
147-153). -/
inductive UnknownAction where
  | unknownError : UnknownAction
  | unknownFail : UnknownAction
  | unknownWarning : UnknownAction

/-- VMCtx is the VM state that `arrive` and `exec` read: the procedure
table and the unknown policy. -/
structure VMCtx where
  procedures : ProcTable
  unknown : UnknownAction

/-- piString models `procedureIndicator.String()`, the text handed to the
UnknownWarning callback. -/
def piString (pi : PI) : String :=
  pi.name ++ "/" ++ toString pi.arity

/-- Regs is the register set of part_000 (lines 201-210); continuations
are explicit functions and the cut barrier is a promise identity. -/
structure Regs where
  pc : List Instr
  xr : List XrElem
  vars : List Nat
  args : Term
  astack : Term
  exit : Env → Prom
  fail : Env → Prom
  env : Env
  cutParent : Option Nat

/-- xrElemTerm reads an xr entry as a term where the bytecode uses it in a
term position (a stored procedure indicator also implements
`term.Interface` in Go; compiled code never places one in a const
slot). -/
def xrElemTerm : XrElem → Term
  | XrElem.xt t => t
  | XrElem.xp p => piTerm p

mutual

/-- exec is the bytecode interpreter `VM.exec` of part_000 (lines
212-238) together with its per-opcode step functions (lines 240-400),
at promise-outcome level: a nil cut parent is replaced by a fresh barrier,
an empty program is the `non-exit end of bytecode` system error, each
recognized opcode performs its step, and an instruction whose opcode is
not in the jump table yields the `unknown opcode` system error.  The Nat
argument is recursion gas, consumed across call boundaries and
instructions. -/
def exec : Nat → VMCtx → Regs → Prom
  | 0, _, _ => Prom.err (PErr.systemE "recursion gas exhausted")
  | g + 1, vm, r =>
      let cpe : Nat × Env :=
        match r.cutParent with
        | some b => (b, r.env)
        | none => newVar r.env
      let cp := cpe.1
      let env0 := cpe.2
      match r.pc with
      | [] => Prom.err (PErr.systemE "non-exit end of bytecode")
      | i :: rest =>
          if i.opcode = opVoid then
            exec g vm { r with pc := rest, env := env0, cutParent := some cp }
          else if i.opcode = opConst then
            let x := xrElemTerm (r.xr.getD i.operand (XrElem.xt (Term.atom "")))
            let (av, env1) := newVar env0
            match unify (unifyFuel env1) r.args
                (Term.compound "." [x, Term.var av]) env1 with
            | none => r.fail env1
            | some env2 =>
                exec g vm { r with pc := rest,
                                   args := Term.var av,
                                   env := env2,
                                   cutParent := some cp }
          else if i.opcode = opVar then
            let v := Term.var (r.vars.getD i.operand 0)
            let (av, env1) := newVar env0
            match unify (unifyFuel env1) r.args
                (Term.compound "." [v, Term.var av]) env1 with
            | none => r.fail env1
            | some env2 =>
                exec g vm { r with pc := rest,
                                   args := Term.var av,
                                   env := env2,
                                   cutParent := some cp }
          else if i.opcode = opFunctor then
            let x := r.xr.getD i.operand (XrElem.xt (Term.atom ""))
            let (argv, env1) := newVar env0
            let (arest, env2) := newVar env1
            match unify (unifyFuel env2) r.args
                (Term.compound "." [Term.var argv, Term.var arest]) env2 with
            | none => r.fail env2
            | some env3 =>
                match x with
                | XrElem.xt _ => Prom.err (PErr.plainE "not a principal functor")
                | XrElem.xp pf =>
                    match Functor (Term.var argv) (Term.atom pf.name)
                        (Term.int pf.arity) Prom.tru env3 with
                    | Prom.err e => Prom.err e
                    | Prom.tru env4 =>
                        let (v2, env5) := newVar env4
                        match Univ (Term.var argv)
                            (Term.compound "." [Term.atom pf.name, Term.var v2])
                            Prom.tru env5 with
                        | Prom.err e => Prom.err e
                        | Prom.tru env6 =>
                            exec g vm
                              { r with
                                  pc := rest
                                  args := Term.var v2
                                  astack :=
                                    Term.compound "." [Term.var arest, r.astack]
                                  env := env6
                                  cutParent := some cp }
                        | _ => r.fail env5
                    | _ => r.fail env3
          else if i.opcode = opPop then
            match unify (unifyFuel env0) r.args (listTerm []) env0 with
            | none => r.fail env0
            | some env1 =>
                let (a, env2) := newVar env1
                let (arest, env3) := newVar env2
                match unify (unifyFuel env3) r.astack
                    (Term.compound "." [Term.var a, Term.var arest]) env3 with
                | none => r.fail env3
                | some env4 =>
                    exec g vm { r with
                                  pc := rest
                                  args := Term.var a
                                  astack := Term.var arest
                                  env := env4
                                  cutParent := some cp }
          else if i.opcode = opEnter then
            match unify (unifyFuel env0) r.args (listTerm []) env0 with
            | none => r.fail env0
            | some env1 =>
                match unify (unifyFuel env1) r.astack (listTerm []) env1 with
                | none => r.fail env1
                | some env2 =>
                    let (v, env3) := newVar env2
                    exec g vm { r with
                                  pc := rest
                                  args := Term.var v
                                  astack := Term.var v
                                  env := env3
                                  cutParent := some cp }
          else if i.opcode = opCall then
            let x := r.xr.getD i.operand (XrElem.xt (Term.atom ""))
            match unify (unifyFuel env0) r.args (listTerm []) env0 with
            | none => r.fail env0
            | some env1 =>
                match x with
                | XrElem.xt _ => Prom.err (PErr.plainE "not a principal functor")
                | XrElem.xp pi =>
                    delayF none [fun _ =>
                      (arrive g vm pi r.astack
                        (fun env =>
                          let (v, e2) := newVar env
                          exec g vm { pc := rest
                                      xr := r.xr
                                      vars := r.vars
                                      args := Term.var v
                                      astack := Term.var v
                                      exit := r.exit
                                      fail := r.fail
                                      env := e2
                                      cutParent := some cp })
                        env1).1]
          else if i.opcode = opExit then r.exit env0
          else if i.opcode = opCut then
            match exec g vm { r with pc := rest,
                                     env := env0,
                                     cutParent := some cp } with
            | Prom.fls => Prom.cutSig cp
            | p => p
          else Prom.err (PErr.systemE ("unknown opcode: " ++ toString i.opcode))

/-- arrive is `VM.arrive` of part_000 (lines 172-199): look up the
procedure; when absent, the unknown policy decides — `error` raises
existence_error(procedure, name/arity), `warning` invokes the
UnknownWarning callback (returned here as the second component) and falls
through to `fail`, which returns `Bool(false)`; a present procedure is
called through a delayed promise. -/
def arrive : Nat → VMCtx → PI → Term → (Env → Prom) → Env →
    Prom × List String
  | 0, _, _, _, _, _ => (Prom.err (PErr.systemE "recursion gas exhausted"), [])
  | g + 1, vm, pi, args, k, env =>
      match lookupProc vm.procedures pi with
      | none =>
          match vm.unknown with
          | UnknownAction.unknownError =>
              (Prom.err (PErr.existenceE "procedure" (piTerm pi)), [])
          | UnknownAction.unknownWarning => (Prom.fls, [piString pi])
          | UnknownAction.unknownFail => (Prom.fls, [])
      | some p => (delayF none [fun _ => procCall g vm p args k env], [])

/-- procCall is `procedure.Call`: a builtin closure is applied directly;
a clause list runs `clauses.call` (absent from src/ in this engine
version; modelled from the spec §4.4 and the newer clauses.call under
src/): one alternative per clause in database order, fresh variables per
slot, the clause bytecode started on the caller's arguments with the
caller's continuation, and the cut barrier set to the delay binding the
alternatives. -/
def procCall : Nat → VMCtx → Procedure → Term → (Env → Prom) → Env → Prom
  | 0, _, _, _, _, _ => Prom.err (PErr.systemE "recursion gas exhausted")
  | _ + 1, _, Procedure.builtinP f, args, k, env => f args k env
  | g + 1, vm, Procedure.clausesP cs, args, k, env =>
      let (bid, env1) := newVar env
      delayF (some bid) (cs.map (fun c => fun _ =>
        let (vs, env2) := freshVars c.vars.length env1
        exec g vm { pc := c.bytecode
                    xr := c.xr
                    vars := vs
                    args := args
                    astack := listTerm []
                    exit := k
                    fail := fun _ => Prom.fls
                    env := env2
                    cutParent := some bid }))

end

/-- C8: an instruction whose opcode is none of the nine recognized
opcodes (opVoid, opEnter, opCall, opExit, opConst, opVar, opFunctor,
opPop, opCut — the bytes 0 through 8) makes the VM return an Error
promise carrying the `unknown opcode` system error: it neither succeeds,
nor fails, nor panics, for every bytecode suffix, register state and
recursion gas. -/
theorem exec_unknown_opcode_system_error (g : Nat) (vm : VMCtx) (r : Regs)
    (i : Instr) (rest : List Instr) (hpc : r.pc = i :: rest)
    (hlo : 9 ≤ i.opcode) (hhi : i.opcode < 256) :
    exec (g + 1) vm r =
      Prom.err (PErr.systemE ("unknown opcode: " ++ toString i.opcode)) := by
  have h0 : ¬ i.opcode = opVoid := by rw [opVoid]; omega
  have h1 : ¬ i.opcode = opEnter := by rw [opEnter]; omega
  have h2 : ¬ i.opcode = opCall := by rw [opCall]; omega
  have h3 : ¬ i.opcode = opExit := by rw [opExit]; omega
  have h4 : ¬ i.opcode = opConst := by rw [opConst]; omega
  have h5 : ¬ i.opcode = opVar := by rw [opVar]; omega
  have h6 : ¬ i.opcode = opFunctor := by rw [opFunctor]; omega
  have h7 : ¬ i.opcode = opPop := by rw [opPop]; omega
  have h8 : ¬ i.opcode = opCut := by rw [opCut]; omega
  rw [exec, hpc]
  simp only [h0, h1, h2, h3, h4, h5, h6, h7, h8, if_false]

/-- C8 witness: a one-instruction program with opcode 9 on a concrete
register state. -/
theorem exec_unknown_opcode_system_error_witness :
    exec 1 ⟨[], UnknownAction.unknownError⟩
        ⟨[⟨9, 0⟩], [], [], listTerm [], listTerm [], Prom.tru,
          fun _ => Prom.fls, ⟨[], 0⟩, some 0⟩ =
      Prom.err (PErr.systemE ("unknown opcode: " ++ toString (9 : Nat))) :=
  exec_unknown_opcode_system_error 0 ⟨[], UnknownAction.unknownError⟩
    ⟨[⟨9, 0⟩], [], [], listTerm [], listTerm [], Prom.tru,
      fun _ => Prom.fls, ⟨[], 0⟩, some 0⟩
    ⟨9, 0⟩ [] rfl (by decide) (by decide)

/-- C6: arriving at a procedure indicator absent from the table follows
the unknown policy — with `error` an Error promise carrying
existence_error(procedure, name/arity), with `warning` the UnknownWarning
callback is invoked (the warning component) and the result is
Bool(false), with `fail` Bool(false) and no warning. -/
theorem arrive_unknown_policy (g : Nat) (procs : ProcTable) (pi : PI)
    (args : Term) (k : Env → Prom) (env : Env)
    (habsent : lookupProc procs pi = none) :
    arrive (g + 1) ⟨procs, UnknownAction.unknownError⟩ pi args k env =
        (Prom.err (PErr.existenceE "procedure" (piTerm pi)), []) ∧
      arrive (g + 1) ⟨procs, UnknownAction.unknownWarning⟩ pi args k env =
        (Prom.fls, [piString pi]) ∧
      arrive (g + 1) ⟨procs, UnknownAction.unknownFail⟩ pi args k env =
        (Prom.fls, []) := by
  refine ⟨?_, ?_, ?_⟩ <;>
    · rw [arrive]
      simp only [habsent]

/-- C6 witness: the policy theorem applied to the empty table and the
indicator foo/0. -/
theorem arrive_unknown_policy_witness :
    arrive 1 ⟨[], UnknownAction.unknownError⟩ ⟨"foo", 0⟩ (listTerm [])
        Prom.tru ⟨[], 0⟩ =
        (Prom.err (PErr.existenceE "procedure" (piTerm ⟨"foo", 0⟩)), []) ∧
      arrive 1 ⟨[], UnknownAction.unknownWarning⟩ ⟨"foo", 0⟩ (listTerm [])
        Prom.tru ⟨[], 0⟩ = (Prom.fls, [piString ⟨"foo", 0⟩]) ∧
      arrive 1 ⟨[], UnknownAction.unknownFail⟩ ⟨"foo", 0⟩ (listTerm [])
        Prom.tru ⟨[], 0⟩ = (Prom.fls, []) :=
  arrive_unknown_policy 0 [] ⟨"foo", 0⟩ (listTerm []) Prom.tru ⟨[], 0⟩ rfl

/-- C3 counterexample: the tie Integer(1) versus Float(1.0) is reported
with the integer greater (1), not less, and Float(1.5) is reported less
than Integer(1) although 1.5 > 1, so the mixed ordering is neither tied
integer-first nor by numeric value. -/
theorem compare_int_float_order_counterexample :
    compare (Term.int 1) (Term.float (GoFloat.finite ⟨1, 1⟩)) = 1 ∧
      ¬ compare (Term.int 1) (Term.float (GoFloat.finite ⟨1, 1⟩)) < 0 ∧
      compare (Term.float (GoFloat.finite ⟨3, 2⟩)) (Term.int 1) = -1 := by
  refine ⟨?_, ?_, ?_⟩
  · rw [compare_int_float, intToGf, gfSub_finite]
    decide
  · rw [compare_int_float, intToGf, gfSub_finite]
    decide
  · rw [compare_float_int, intToGf, gfSub_finite]
    decide

end PrologM
